import Mathlib

/-! Shallow embedding of the Kaleidoscope retrieval and orchestration core:
    `backend/api/retrieval.py`, `backend/services/agent.py` and
    `backend/models/sessions.py`.  Python strings are modelled as Lean
    `String` where only equality, trimming and truncation by code points
    matter, and as `List Char` where character-level reasoning is needed
    (session content, streaming).  UTC timestamps are modelled as epoch
    seconds (`Int`); float distances and scores as `ℚ`.  Network and
    database effects (httpx, psycopg) are abstracted: the SQL query result
    of `peek` becomes an input row list, the completion gateway becomes a
    round-indexed function, and the embeddings table behind the hydrate
    tool becomes an association list. -/

/-- Constant `MAX_ROUNDS = 8` from `backend/services/agent.py`. -/
def MAX_ROUNDS : Nat := 8

/-- Constant `MAX_HYDRATE_TURNS = 20` from `backend/services/agent.py`. -/
def MAX_HYDRATE_TURNS : Nat := 20

/-- Constant `MAX_TURN_CHARS = 2000` from `backend/services/agent.py`. -/
def MAX_TURN_CHARS : Nat := 2000

/-- Constant `MAX_SNIPPET_LEN = 400` from `backend/api/retrieval.py`. -/
def MAX_SNIPPET_LEN : Nat := 400

/-- Constant `MAX_CONTENT_LEN = 32_000` from `backend/models/sessions.py`. -/
def MAX_CONTENT_LEN : Nat := 32000

/-- Constant `DEFAULT_BIN_DAYS = 7` from `backend/services/agent.py`
    (the orchestrator default, distinct from the API default of 1). -/
def DEFAULT_BIN_DAYS : Int := 7

/-- Embedding of `score_from_distance` (`backend/api/retrieval.py`):
    `return 1.0 / (1.0 + distance)`.  Python floats are modelled as `ℚ`. -/
def score_from_distance (distance : ℚ) : ℚ := 1 / (1 + distance)

/-- Embedding of `bin_timestamp` (`backend/api/retrieval.py`):
    `int(ts_utc.timestamp()) // bin_seconds * bin_seconds`, with the
    timestamp already given as integral epoch seconds.  Python `//` is
    floor division, hence `Int.fdiv`. -/
def bin_timestamp (ts : Int) (bin_seconds : Int) : Int :=
  ts.fdiv bin_seconds * bin_seconds

/-- Python `str.strip()` on content modelled as a character list. -/
def stripChars (l : List Char) : List Char :=
  ((l.dropWhile Char.isWhitespace).reverse.dropWhile Char.isWhitespace).reverse

/-- Python `str.strip()` on a `String`, via its character list (kept
    executable by structural recursion, unlike `String.trim`). -/
def pyStrip (s : String) : String :=
  String.mk (stripChars s.data)

/-- Embedding of `trim_snippet` (`backend/api/retrieval.py`): strip, then
    cut to `MAX_SNIPPET_LEN` characters; `None` passes through. -/
def trim_snippet (text : Option String) : Option String :=
  match text with
  | none => none
  | some t =>
    let t := pyStrip t
    if t.length > MAX_SNIPPET_LEN then some (t.take MAX_SNIPPET_LEN) else some t

/-- Embedding of `_truncate` (`backend/services/agent.py`): cut to
    `MAX_TURN_CHARS` characters; `None` passes through. -/
def pyTruncate (text : Option String) : Option String :=
  match text with
  | none => none
  | some t => if t.length > MAX_TURN_CHARS then some (t.take MAX_TURN_CHARS) else some t

/-- Candidate row returned by the nearest-neighbor SQL query in
    `RetrievalTools.peek` / the `peek` endpoint, in ascending-distance
    order.  `user_create_time` is nullable in the corpus (the ingest
    pipeline stores NULL when the export has no timestamp). -/
structure PeekRow where
  turn_id : String
  user_message_id : String
  assistant_message_id : Option String
  used_turn_summary : Bool
  conversation_id : String
  user_create_time : Option Int
  user_text : Option String
  assistant_text : Option String
  assistant_summary : Option String
  distance : ℚ
deriving DecidableEq, Repr

/-- Histogram bucket as emitted by `peek`: start, end, count. -/
structure HistogramBucket where
  bucket_start : Int
  bucket_end : Int
  count : Nat
deriving DecidableEq, Repr

/-- Histogram as emitted by `peek`: bin size, total candidate count,
    ordered buckets. -/
structure Histogram where
  bin_days : Int
  total : Nat
  buckets : List HistogramBucket
deriving DecidableEq, Repr

/-- One step of the Python dict update `buckets[b] = buckets.get(b, 0) + 1`
    on an association list. -/
def bumpBucket : List (Int × Nat) → Int → List (Int × Nat)
  | [], k => [(k, 1)]
  | (k0, c) :: rest, k =>
    if k0 = k then (k0, c + 1) :: rest else (k0, c) :: bumpBucket rest k

/-- The bucket-accumulation loop of `peek`: rows whose `user_create_time`
    is NULL are skipped (the `if user_create_time_utc:` guard); all others
    are binned with `bin_timestamp`. -/
def peekBuckets (rows : List PeekRow) (bin_seconds : Int) : List (Int × Nat) :=
  rows.foldl
    (fun acc row =>
      match row.user_create_time with
      | none => acc
      | some t => bumpBucket acc (bin_timestamp t bin_seconds))
    []

/-- The `histogram_buckets` list comprehension of `peek`: sort the bucket
    map by key and attach `end = start + bin_seconds`. -/
def histogramBuckets (rows : List PeekRow) (bin_seconds : Int) : List HistogramBucket :=
  ((peekBuckets rows bin_seconds).mergeSort (fun a b => a.1 ≤ b.1)).map
    (fun p => { bucket_start := p.1, bucket_end := p.1 + bin_seconds, count := p.2 })

/-- The `histogram` dict built by `peek`: `total` is `len(rows)`. -/
def peekHistogram (rows : List PeekRow) (bin_days : Int) : Histogram :=
  { bin_days := bin_days
    total := rows.length
    buckets := histogramBuckets rows (bin_days * 86400) }

/-- Preview entry built by `peek` for the first `min(top_n_snippets,
    candidate_count)` rows. -/
structure Preview where
  turn_id : String
  conversation_id : String
  user_message_id : String
  assistant_message_id : Option String
  create_time : Option Int
  user_snippet : String
  assistant_snippet : Option String
  score : ℚ
deriving DecidableEq, Repr

/-- The per-row preview construction of `peek`, including the
    summary-substitution rule for assistant content. -/
def previewOf (row : PeekRow) : Preview :=
  let assistant_source :=
    if row.used_turn_summary then row.assistant_summary else row.assistant_text
  { turn_id := row.turn_id
    conversation_id := row.conversation_id
    user_message_id := row.user_message_id
    assistant_message_id := row.assistant_message_id
    create_time := row.user_create_time
    user_snippet := (trim_snippet row.user_text).getD ""
    assistant_snippet := trim_snippet assistant_source
    score := score_from_distance row.distance }

/-- The preview-accumulation loop of `peek`: append `previewOf row` while
    `len(previews) < max_matches`, where
    `max_matches = min(top_n_snippets, len(rows))` is computed over Python
    ints (modelled as `Int`, since the tool-side `peek` does not validate
    the sign of `top_n_snippets`). -/
def peekPreviews (rows : List PeekRow) (top_n_snippets : Int) : List Preview :=
  let max_matches : Int := min top_n_snippets (rows.length : Int)
  rows.foldl
    (fun acc row => if (acc.length : Int) < max_matches then acc ++ [previewOf row] else acc)
    []

/-- Sum of the `count` fields of a bucket list. -/
def sumCounts (buckets : List HistogramBucket) : Nat :=
  (buckets.map (·.count)).sum

/-- Row of the `message_embeddings` join fetched by `RetrievalTools.turn`
    (`backend/services/agent.py`), keyed by the embedding-record id. -/
structure TurnRec where
  id : String
  provider : String
  model : String
  user_message_id : String
  assistant_message_id : Option String
  used_turn_summary : Bool
  conversation_id : String
  user_create_time : Option Int
  user_text : Option String
  assistant_text : Option String
  assistant_summary : Option String
deriving DecidableEq, Repr

/-- Payload of a successful `retrieval_turn` tool response (the fields the
    orchestrator reads back). -/
structure TurnData where
  turn_id : String
  user_content : Option String
  assistant_content : Option String
  used_turn_summary : Bool
  truncated : Bool
deriving DecidableEq, Repr

/-- Data part of a tool response: either a hydrated turn or a peek payload
    carrying its histogram. -/
inductive RespData where
  | turn (d : TurnData)
  | peek (histogram : Option Histogram)
deriving DecidableEq, Repr

/-- Structured tool response: `ok` flag plus either data or an error
    string, mirroring the dicts built in `backend/services/agent.py`. -/
structure ToolResp where
  ok : Bool
  error : Option String
  data : Option RespData
deriving DecidableEq, Repr

/-- Response `{"ok": False, "error": "turn hydration cap reached"}`. -/
def cappedResp : ToolResp :=
  { ok := false, error := some "turn hydration cap reached", data := none }

/-- Response `{"ok": False, "error": "turn not found"}`. -/
def notFoundResp : ToolResp :=
  { ok := false, error := some "turn not found", data := none }

/-- Response `{"ok": False, "error": "invalid turn_id: ..."}`. -/
def invalidTurnIdResp : ToolResp :=
  { ok := false, error := some "invalid turn_id", data := none }

/-- Embedding of `RetrievalTools.turn`: the cap check comes first, then
    UUID parsing (abstracted as the `parse` argument, modelling
    `UUID(str(raw))` which yields `none` when parsing raises), then the
    database lookup; the hydrate counter is incremented only on the
    success path.  Returns the response together with the new counter. -/
def turnTool (db : List TurnRec) (parse : Option String → Option String)
    (hydrated : Nat) (turn_id_raw : Option String) : ToolResp × Nat :=
  if MAX_HYDRATE_TURNS ≤ hydrated then (cappedResp, hydrated)
  else
    match parse turn_id_raw with
    | none => (invalidTurnIdResp, hydrated)
    | some turn_uuid =>
      match db.find? (fun r => r.id == turn_uuid) with
      | none => (notFoundResp, hydrated)
      | some r =>
        let assistant_content :=
          if r.used_turn_summary then r.assistant_summary else r.assistant_text
        let user_trunc := pyTruncate r.user_text
        let assistant_trunc := pyTruncate assistant_content
        let truncated := user_trunc != r.user_text || assistant_trunc != assistant_content
        ({ ok := true, error := none,
           data := some (RespData.turn
             { turn_id := r.id
               user_content := user_trunc
               assistant_content := assistant_trunc
               used_turn_summary := r.used_turn_summary
               truncated := truncated }) },
         hydrated + 1)

/-- Sequential hydrate calls within one run, threading the counter,
    starting from a given counter value. -/
def runHydrates (db : List TurnRec) (parse : Option String → Option String) :
    List (Option String) → Nat → List ToolResp × Nat
  | [], hydrated => ([], hydrated)
  | a :: rest, hydrated =>
    let step := turnTool db parse hydrated a
    let tail := runHydrates db parse rest step.2
    (step.1 :: tail.1, tail.2)

/-- Parsed tool-call arguments as used by the dispatcher (the JSON layer
    is abstracted; only `turn_id` is inspected by the embedded tools, the
    peek arguments are consumed by the peek oracle). -/
structure ToolArgs where
  turn_id : Option String
deriving DecidableEq, Repr

/-- One tool call of a completion response. -/
structure ToolCall where
  id : Option String
  name : Option String
  args : ToolArgs
deriving DecidableEq, Repr

/-- Assistant message of one completion response: optional text content
    plus a (possibly empty) tool-call list. -/
structure CompletionMessage where
  content : Option String
  tool_calls : List ToolCall
deriving DecidableEq, Repr

/-- Log entry `ToolRun` from `backend/services/agent.py`. -/
structure ToolRun where
  tool : String
  arguments : ToolArgs
  response : ToolResp
deriving DecidableEq, Repr

/-- Terminal result `OrchestratorResult` from `backend/services/agent.py`. -/
structure OrchestratorResult where
  intent : String
  final_answer : Option String
  status : String
  rounds : Nat
  tool_runs : List ToolRun
  cited_turn_ids : List String
  histogram : Option Histogram
deriving DecidableEq, Repr

/-- Environment of one orchestration run: the completion gateway as a
    round-indexed message supply, the peek tool as an oracle over its
    arguments (its network and SQL effects are external), the embeddings
    table behind the hydrate tool, and the UUID parser. -/
structure OrchEnv where
  completions : Nat → CompletionMessage
  peekOracle : ToolArgs → ToolResp
  db : List TurnRec
  parse : Option String → Option String

/-- Mutable loop state of `LLMOrchestrator.run`: the tool-run log, the
    histogram of the most recent successful peek, and the hydrate counter
    living in `RetrievalTools`. -/
structure LoopState where
  tool_runs : List ToolRun
  histogram : Option Histogram
  hydrated : Nat

/-- Embedding of `LLMOrchestrator._dispatch`: route by tool name, unknown
    names yield a structured error. -/
def dispatchTool (env : OrchEnv) (hydrated : Nat) (name : Option String) (args : ToolArgs) :
    ToolResp × Nat :=
  if name = some "retrieval_peek" then (env.peekOracle args, hydrated)
  else if name = some "retrieval_turn" then turnTool env.db env.parse hydrated args.turn_id
  else ({ ok := false, error := some "Unknown tool", data := none }, hydrated)

/-- Histogram field read back from a peek response
    (`response["data"].get("histogram")`). -/
def histogramOf (resp : ToolResp) : Option Histogram :=
  match resp.data with
  | some (RespData.peek h) => h
  | _ => none

/-- One iteration of the tool-call loop inside a round: dispatch, capture
    the histogram of a successful peek, append the `ToolRun` entry. -/
def applyCall (env : OrchEnv) (st : LoopState) (call : ToolCall) : LoopState :=
  let d := dispatchTool env st.hydrated call.name call.args
  let histogram :=
    if call.name = some "retrieval_peek" ∧ d.1.ok = true then histogramOf d.1 else st.histogram
  { tool_runs :=
      st.tool_runs ++ [{ tool := call.name.getD "unknown", arguments := call.args, response := d.1 }]
    histogram := histogram
    hydrated := d.2 }

/-- Sequential dispatch of the tool calls of one round, in order. -/
def applyCalls (env : OrchEnv) (st : LoopState) (calls : List ToolCall) : LoopState :=
  calls.foldl (applyCall env) st

/-- The citation extraction of `LLMOrchestrator.run`: ordered turn ids of
    every successful `retrieval_turn` run in the log, duplicates kept. -/
def citedTurnIds (log : List ToolRun) : List String :=
  log.filterMap (fun tr =>
    if tr.tool = "retrieval_turn" ∧ tr.response.ok = true ∧ tr.response.data.isSome then
      match tr.response.data with
      | some (RespData.turn d) => some d.turn_id
      | _ => none
    else none)

/-- The round loop of `LLMOrchestrator.run`, recursing on remaining
    rounds; with `fuel + 1` rounds remaining the current 1-based round
    index is `MAX_ROUNDS - fuel` and the completion consumed is
    `completions (MAX_ROUNDS - (fuel + 1))`.  A response with tool calls
    dispatches them all and loops; a response with non-empty stripped text
    and no tool calls completes; otherwise the round is consumed and the
    loop continues.  Exhausted fuel produces the `max_rounds_exceeded`
    result with `cited_turn_ids = []`. -/
def orchGo (env : OrchEnv) (intent : String) : Nat → LoopState → OrchestratorResult
  | 0, st =>
    { intent := intent, final_answer := none, status := "max_rounds_exceeded"
      rounds := MAX_ROUNDS, tool_runs := st.tool_runs, cited_turn_ids := []
      histogram := st.histogram }
  | fuel + 1, st =>
    let message := env.completions (MAX_ROUNDS - (fuel + 1))
    if message.tool_calls ≠ [] then
      orchGo env intent fuel (applyCalls env st message.tool_calls)
    else
      let content := pyStrip (message.content.getD "")
      if content = "" then orchGo env intent fuel st
      else
        { intent := intent, final_answer := some content, status := "completed"
          rounds := MAX_ROUNDS - fuel, tool_runs := st.tool_runs
          cited_turn_ids := citedTurnIds st.tool_runs, histogram := st.histogram }

/-- Embedding of `LLMOrchestrator.run`: start at round 1 with an empty
    log, no histogram and a zero hydrate counter. -/
def LLMOrchestrator_run (env : OrchEnv) (intent : String) : OrchestratorResult :=
  orchGo env intent MAX_ROUNDS { tool_runs := [], histogram := none, hydrated := 0 }

/-- Content preparation inside `_insert_message`
    (`backend/models/sessions.py`): strip, then truncate to
    `MAX_CONTENT_LEN` characters when non-empty and over the limit. -/
def insertContent (content_text : List Char) : List Char :=
  let content_trimmed := stripChars content_text
  if content_trimmed ≠ [] ∧ MAX_CONTENT_LEN < content_trimmed.length then
    content_trimmed.take MAX_CONTENT_LEN
  else content_trimmed

/-- Session row: id, archived flag, and the `conversation_id` entry of the
    metadata JSON when present. -/
structure SessionRow where
  id : String
  archived : Bool
  metadata_conversation_id : Option String
deriving DecidableEq, Repr

/-- Row of the `messages` table as written by `_insert_message`. -/
structure MessageRow where
  id : String
  conversation_id : String
  role : String
  idx_in_conv : Nat
  content_text : List Char
deriving DecidableEq, Repr

/-- Row of the `session_messages` link table. -/
structure SessionMessageRow where
  session_id : String
  message_id : String
  idx : Nat
deriving DecidableEq, Repr

/-- Relational state touched by the sessions store, plus a counter that
    supplies fresh identifiers (modelling `uuid4()`). -/
structure Store where
  sessions : List SessionRow
  messages : List MessageRow
  session_messages : List SessionMessageRow
  fresh : Nat
deriving DecidableEq, Repr

/-- Fresh identifier supply standing in for `uuid4()`. -/
def freshId (n : Nat) : String := "id" ++ toString n

/-- Embedding of `_next_idx_for_conversation`:
    `COALESCE(MAX(idx_in_conv) + 1, 0)` over the messages of one
    conversation. -/
def nextIdxForConversation (st : Store) (conversation_id : String) : Nat :=
  ((st.messages.filter (fun m => m.conversation_id == conversation_id)).map
    (fun m => m.idx_in_conv + 1)).foldl max 0

/-- Embedding of `_next_idx_for_session`: `COALESCE(MAX(idx) + 1, 0)` over
    the link rows of one session. -/
def nextIdxForSession (st : Store) (session_id : String) : Nat :=
  ((st.session_messages.filter (fun sm => sm.session_id == session_id)).map
    (fun sm => sm.idx + 1)).foldl max 0

/-- Embedding of `_insert_message`: allocate an id, strip and truncate the
    content, append the row.  The `conversations` table itself is not
    modelled (only its id is threaded). -/
def insertMessage (st : Store) (conversation_id : String) (role : String)
    (content_text : List Char) (idx_in_conv : Nat) : String × Store :=
  let message_id := freshId st.fresh
  (message_id,
   { st with
       messages := st.messages ++
         [{ id := message_id, conversation_id := conversation_id, role := role
            idx_in_conv := idx_in_conv, content_text := insertContent content_text }]
       fresh := st.fresh + 1 })

/-- Embedding of `_link_session_message`. -/
def linkSessionMessage (st : Store) (session_id : String) (message_id : String) (idx : Nat) :
    Store :=
  { st with
      session_messages := st.session_messages ++
        [{ session_id := session_id, message_id := message_id, idx := idx }] }

/-- Embedding of `_conversation_id_for_session`: prefer the metadata
    entry; otherwise the conversation of the first linked message (by
    link idx); otherwise a fresh id.  Metadata writes back via
    `_persist_conversation_metadata` are reflected in the session row. -/
def conversationIdForSession (st : Store) (session_id : String)
    (metadata_conversation_id : Option String) : String × Store :=
  match metadata_conversation_id with
  | some c => (c, st)
  | none =>
    let linked : List SessionMessageRow :=
      (st.session_messages.filter (fun sm => sm.session_id == session_id)).mergeSort
        (fun a b => a.idx ≤ b.idx)
    let fromMessages : Option String :=
      match linked with
      | [] => none
      | sm :: _ =>
        match st.messages.find? (fun m => m.id == sm.message_id) with
        | some m => some m.conversation_id
        | none => none
    match fromMessages with
    | some c =>
      (c, { st with sessions := st.sessions.map (fun s =>
              if s.id == session_id then { s with metadata_conversation_id := some c } else s) })
    | none =>
      let c := freshId st.fresh
      (c, { st with
              fresh := st.fresh + 1
              sessions := st.sessions.map (fun s =>
                if s.id == session_id then { s with metadata_conversation_id := some c } else s) })

/-- Failure modes of `append_turn`: `SessionNotFound`, or the
    `ValueError` raised on an archived session. -/
inductive AppendError where
  | sessionNotFound
  | archivedSession
deriving DecidableEq, Repr

/-- Identifier bundle returned by a successful `append_turn`. -/
structure AppendOk where
  session_id : String
  conversation_id : String
  user_message_id : String
  assistant_message_id : String
deriving DecidableEq, Repr

/-- Embedding of `append_turn` (`backend/models/sessions.py`): fetch the
    session (missing raises `SessionNotFound`), reject archived sessions,
    resolve the conversation, insert the user and assistant messages at
    consecutive indices and link them, and return the four identifiers.
    Failures return an error and leave the store unchanged (the caller
    only commits successful transactions). -/
def append_turn (st : Store) (session_id : String)
    (user_content assistant_content : List Char) : Except AppendError (AppendOk × Store) :=
  match st.sessions.find? (fun s => s.id == session_id) with
  | none => Except.error AppendError.sessionNotFound
  | some srow =>
    if srow.archived then Except.error AppendError.archivedSession
    else
      let c := conversationIdForSession st session_id srow.metadata_conversation_id
      let conversation_id := c.1
      let st := c.2
      let base_idx_conv := nextIdxForConversation st conversation_id
      let base_idx_session := nextIdxForSession st session_id
      let u := insertMessage st conversation_id "user" user_content base_idx_conv
      let user_id := u.1
      let st := linkSessionMessage u.2 session_id user_id base_idx_session
      let a := insertMessage st conversation_id "assistant" assistant_content (base_idx_conv + 1)
      let assistant_id := a.1
      let st := linkSessionMessage a.2 session_id assistant_id (base_idx_session + 1)
      Except.ok
        ({ session_id := session_id, conversation_id := conversation_id
           user_message_id := user_id, assistant_message_id := assistant_id }, st)

/-- Embedding of `create_session`: fresh conversation and session ids, a
    non-archived session row carrying the conversation in metadata. -/
def create_session (st : Store) : (String × String) × Store :=
  let conversation_id := freshId st.fresh
  let session_id := freshId (st.fresh + 1)
  ((session_id, conversation_id),
   { st with
       sessions := st.sessions ++
         [{ id := session_id, archived := false
            metadata_conversation_id := some conversation_id }]
       fresh := st.fresh + 2 })

/-- Failure modes of `AgentService._persist_turn`: the two empty-content
    HTTP errors raised before any store access, and the mapped store
    errors (404 for `SessionNotFound`, 400 for `ValueError`). -/
inductive PersistError where
  | emptyUserMessage
  | emptyAssistantMessage
  | sessionNotFound
  | badRequest
deriving DecidableEq, Repr

/-- Embedding of `AgentService._persist_turn`: strip both texts and fail
    on empty content before touching the store; create a session when none
    was supplied; then `append_turn`, mapping its errors to HTTP ones. -/
def persist_turn (st : Store) (session_id : Option String)
    (user_text assistant_text : List Char) : Except PersistError (AppendOk × Store) :=
  let user_clean := stripChars user_text
  if user_clean = [] then Except.error PersistError.emptyUserMessage
  else
    let assistant_clean := stripChars assistant_text
    if assistant_clean = [] then Except.error PersistError.emptyAssistantMessage
    else
      let t :=
        match session_id with
        | some sid => (sid, st)
        | none =>
          let r := create_session st
          (r.1.1, r.2)
      match append_turn t.2 t.1 user_clean assistant_clean with
      | Except.error AppendError.sessionNotFound => Except.error PersistError.sessionNotFound
      | Except.error AppendError.archivedSession => Except.error PersistError.badRequest
      | Except.ok r => Except.ok r

/-- Metadata bundle assembled by `AgentService.run`. -/
structure RunMetadata where
  cited_turn_ids : List String
  histogram : Histogram
  session_id : String
  conversation_id : String
  user_message_id : String
  assistant_message_id : String
deriving DecidableEq, Repr

/-- Default histogram used when a run contained no successful peek. -/
def defaultHistogram : Histogram :=
  { bin_days := DEFAULT_BIN_DAYS, total := 0, buckets := [] }

/-- Failure modes of `AgentService.run`: the 502 raised when the
    orchestrator produced no answer, and persistence failures. -/
inductive AgentError where
  | noResponse
  | persist (e : PersistError)
deriving DecidableEq, Repr

/-- Embedding of `AgentService.run`: run the orchestrator, raise before
    any persistence call when `final_answer` is falsy (absent or empty),
    otherwise persist the turn and assemble the metadata bundle. -/
def AgentService_run (env : OrchEnv) (st : Store) (intent : String)
    (session_id : Option String) : Except AgentError ((String × RunMetadata) × Store) :=
  let result := LLMOrchestrator_run env intent
  match result.final_answer with
  | none => Except.error AgentError.noResponse
  | some answer =>
    if answer = "" then Except.error AgentError.noResponse
    else
      let histogram := result.histogram.getD defaultHistogram
      match persist_turn st session_id intent.toList answer.toList with
      | Except.error e => Except.error (AgentError.persist e)
      | Except.ok (ids, st) =>
        Except.ok
          ((answer,
            { cited_turn_ids := result.cited_turn_ids, histogram := histogram
              session_id := ids.session_id, conversation_id := ids.conversation_id
              user_message_id := ids.user_message_id
              assistant_message_id := ids.assistant_message_id }), st)

/-- Python `text.split(" ")` on a character list: split at every single
    space character, keeping empty segments; the empty text yields one
    empty segment. -/
def splitOnSpace : List Char → List (List Char)
  | [] => [[]]
  | c :: rest =>
    if c = ' ' then [] :: splitOnSpace rest
    else
      match splitOnSpace rest with
      | [] => [[c]]
      | p :: ps => (c :: p) :: ps

/-- The per-token delta contents of `stream_answer`:
    `token + (" " if idx < len(lines) - 1 else "")`, written as a
    recursion (every token but the last gets a trailing space). -/
def deltaContents : List (List Char) → List (List Char)
  | [] => []
  | [t] => [t]
  | t :: rest => (t ++ [' ']) :: deltaContents rest

/-- Event stream shape produced by `stream_answer`; the surrounding
    `"data: " + json.dumps(...) + "\n\n"` serialization and the random
    chunk ids are abstracted away, keeping order and payload. -/
inductive StreamEvent where
  | delta (content : List Char)
  | metadataEvent (metadata : RunMetadata) (finish_reason : String)
  | done
deriving DecidableEq, Repr

/-- Embedding of `stream_answer` (`backend/services/agent.py`): one delta
    per `text.split(" ")` token with a trailing space on all but the last,
    then the metadata event with finish reason `"metadata"`, then the
    terminal done marker. -/
def stream_answer (text : List Char) (metadata : RunMetadata) : List StreamEvent :=
  (deltaContents (splitOnSpace text)).map StreamEvent.delta
    ++ [StreamEvent.metadataEvent metadata "metadata", StreamEvent.done]

/-- Modelled from the spec: the token-delta sequence that claim C8
    describes, built from the whitespace-split words of the answer
    (Python `str.split()` with no argument: split on whitespace runs,
    dropping empty segments), each word carrying a trailing space except
    the last. -/
def claimedDeltaContents (text : List Char) : List (List Char) :=
  deltaContents ((text.splitOnP Char.isWhitespace).filter (fun w => w ≠ []))

lemma sum_bumpBucket (m : List (Int × Nat)) (k : Int) :
    ((bumpBucket m k).map (fun p => p.2)).sum = ((m.map (fun p => p.2)).sum) + 1 := by
  induction m with
  | nil => simp [bumpBucket]
  | cons hd tl ih =>
    obtain ⟨k0, c⟩ := hd
    by_cases hk : k0 = k
    · simp [bumpBucket, hk]
      omega
    · simp [bumpBucket, hk, ih]
      omega

lemma mem_bumpBucket {m : List (Int × Nat)} {k : Int} {p : Int × Nat}
    (hp : p ∈ bumpBucket m k) : p.1 = k ∨ p ∈ m := by
  induction m with
  | nil =>
    simp [bumpBucket] at hp
    left
    rw [hp]
  | cons hd tl ih =>
    obtain ⟨k0, c⟩ := hd
    by_cases hk : k0 = k
    · simp [bumpBucket, hk] at hp
      rcases hp with hp | hp
      · left; rw [hp]
      · right; simp [hp]
    · simp [bumpBucket, hk] at hp
      rcases hp with hp | hp
      · right; simp [hp]
      · rcases ih hp with h | h
        · left; exact h
        · right; simp [h]

lemma peekBuckets_foldl_sum (rows : List PeekRow) (bin_seconds : Int) :
    ∀ acc : List (Int × Nat),
      ((rows.foldl
          (fun acc row =>
            match row.user_create_time with
            | none => acc
            | some t => bumpBucket acc (bin_timestamp t bin_seconds))
          acc).map (fun p => p.2)).sum
        = (acc.map (fun p => p.2)).sum
          + (rows.filter (fun r => r.user_create_time.isSome)).length := by
  induction rows with
  | nil => intro acc; simp
  | cons hd tl ih =>
    intro acc
    cases hct : hd.user_create_time with
    | none => simp [List.foldl_cons, hct, ih]
    | some t =>
      simp only [List.foldl_cons, hct]
      rw [ih]
      rw [sum_bumpBucket]
      simp [List.filter_cons, hct]
      omega

lemma peekBuckets_foldl_keys (rows : List PeekRow) (bin_seconds : Int) :
    ∀ acc : List (Int × Nat),
      (∀ p ∈ acc, bin_seconds ∣ p.1) →
      ∀ p ∈ rows.foldl
          (fun acc row =>
            match row.user_create_time with
            | none => acc
            | some t => bumpBucket acc (bin_timestamp t bin_seconds))
          acc,
        bin_seconds ∣ p.1 := by
  induction rows with
  | nil => intro acc hacc; simpa using hacc
  | cons hd tl ih =>
    intro acc hacc
    cases hct : hd.user_create_time with
    | none => simpa [List.foldl_cons, hct] using ih acc hacc
    | some t =>
      simp only [List.foldl_cons, hct]
      refine ih _ ?_
      intro p hp
      rcases mem_bumpBucket hp with h | h
      · rw [h, bin_timestamp]
        exact dvd_mul_left bin_seconds (t.fdiv bin_seconds)
      · exact hacc p h

lemma peekBuckets_sum (rows : List PeekRow) (bin_seconds : Int) :
    ((peekBuckets rows bin_seconds).map (fun p => p.2)).sum
      = (rows.filter (fun r => r.user_create_time.isSome)).length := by
  have := peekBuckets_foldl_sum rows bin_seconds []
  simpa [peekBuckets] using this

lemma peekBuckets_keys (rows : List PeekRow) (bin_seconds : Int) :
    ∀ p ∈ peekBuckets rows bin_seconds, bin_seconds ∣ p.1 := by
  exact peekBuckets_foldl_keys rows bin_seconds [] (by simp)

lemma sumCounts_histogramBuckets (rows : List PeekRow) (bin_seconds : Int) :
    sumCounts (histogramBuckets rows bin_seconds)
      = (rows.filter (fun r => r.user_create_time.isSome)).length := by
  unfold sumCounts histogramBuckets
  rw [List.map_map]
  have hperm :
      ((peekBuckets rows bin_seconds).mergeSort (fun a b => a.1 ≤ b.1)).Perm
        (peekBuckets rows bin_seconds) :=
    List.mergeSort_perm _ _
  have hsum := (hperm.map (fun p : Int × Nat => p.2)).sum_eq
  calc (((peekBuckets rows bin_seconds).mergeSort (fun a b => a.1 ≤ b.1)).map
          (fun p : Int × Nat => p.2)).sum
      = ((peekBuckets rows bin_seconds).map (fun p : Int × Nat => p.2)).sum := hsum
    _ = (rows.filter (fun r => r.user_create_time.isSome)).length :=
        peekBuckets_sum rows bin_seconds

/-- C4 (corrected): for every peek call, the sum of the `count` fields over
    all histogram buckets equals the number of candidate rows whose create
    time is non-null — each such candidate is assigned to a bucket even
    when beyond the preview cutoff — which is at most the number of rows
    returned (reported as the `total` of the histogram, itself at most
    `top_k`); and every bucket satisfies `bucket_end = bucket_start +
    bin_days * 86400` seconds exactly, with `bucket_start` a UTC-epoch
    aligned multiple of `bin_days * 86400` seconds. -/
theorem histogram_counts_corrected (rows : List PeekRow) (bin_days top_k : Int)
    (hk : (rows.length : Int) ≤ top_k) :
    sumCounts (peekHistogram rows bin_days).buckets
        = (rows.filter (fun r => r.user_create_time.isSome)).length
    ∧ (peekHistogram rows bin_days).total = rows.length
    ∧ sumCounts (peekHistogram rows bin_days).buckets ≤ rows.length
    ∧ ((peekHistogram rows bin_days).total : Int) ≤ top_k
    ∧ ∀ b ∈ (peekHistogram rows bin_days).buckets,
        b.bucket_end = b.bucket_start + bin_days * 86400
        ∧ (bin_days * 86400) ∣ b.bucket_start := by
  refine ⟨?_, rfl, ?_, ?_, ?_⟩
  · simpa [peekHistogram] using sumCounts_histogramBuckets rows (bin_days * 86400)
  · have h := sumCounts_histogramBuckets rows (bin_days * 86400)
    have hle := List.length_filter_le (fun r : PeekRow => r.user_create_time.isSome) rows
    simpa [peekHistogram, h] using hle
  · simpa [peekHistogram] using hk
  · intro b hb
    simp only [peekHistogram, histogramBuckets, List.mem_map] at hb
    obtain ⟨p, hp, hpb⟩ := hb
    have hkey : (bin_days * 86400) ∣ p.1 := by
      have hmem : p ∈ peekBuckets rows (bin_days * 86400) := List.mem_mergeSort.mp hp
      exact peekBuckets_keys rows (bin_days * 86400) p hmem
    constructor
    · rw [← hpb]
    · rw [← hpb]
      exact hkey

/-- Witness for C4 at a concrete peek: a single candidate with create time
    100000 seconds, `bin_days = 7`, `top_k = 50`. -/
theorem histogram_counts_corrected_witness :
    ((([{ turn_id := "t1", user_message_id := "u1", assistant_message_id := none,
          used_turn_summary := false, conversation_id := "c1",
          user_create_time := some 100000, user_text := some "hello",
          assistant_text := some "world", assistant_summary := none,
          distance := 1 }] : List PeekRow).length : Int) ≤ 50)
    ∧ sumCounts (peekHistogram
        [{ turn_id := "t1", user_message_id := "u1", assistant_message_id := none,
           used_turn_summary := false, conversation_id := "c1",
           user_create_time := some 100000, user_text := some "hello",
           assistant_text := some "world", assistant_summary := none,
           distance := 1 }] 7).buckets
        = (([{ turn_id := "t1", user_message_id := "u1", assistant_message_id := none,
               used_turn_summary := false, conversation_id := "c1",
               user_create_time := some 100000, user_text := some "hello",
               assistant_text := some "world", assistant_summary := none,
               distance := 1 }] : List PeekRow).filter
            (fun r => r.user_create_time.isSome)).length :=
  ⟨by decide,
   (histogram_counts_corrected
      [{ turn_id := "t1", user_message_id := "u1", assistant_message_id := none,
         used_turn_summary := false, conversation_id := "c1",
         user_create_time := some 100000, user_text := some "hello",
         assistant_text := some "world", assistant_summary := none,
         distance := 1 }] 7 50 (by decide)).1⟩

/-- Counterexample to C4 as stated: a candidate row with a NULL create
    time is returned by the search (so it counts toward `total`) but is
    assigned to no bucket, so the bucket counts sum to 0 while `total`
    is 1. -/
theorem histogram_counts_counterexample :
    ¬ (sumCounts (peekHistogram
        [{ turn_id := "t1", user_message_id := "u1", assistant_message_id := none,
           used_turn_summary := false, conversation_id := "c1",
           user_create_time := none, user_text := some "hello",
           assistant_text := some "world", assistant_summary := none,
           distance := 1 }] 7).buckets
      = (peekHistogram
        [{ turn_id := "t1", user_message_id := "u1", assistant_message_id := none,
           used_turn_summary := false, conversation_id := "c1",
           user_create_time := none, user_text := some "hello",
           assistant_text := some "world", assistant_summary := none,
           distance := 1 }] 7).total) := by
  simp [peekHistogram, sumCounts, histogramBuckets, peekBuckets]

lemma peekPreviews_foldl_full (m : Int) (rows : List PeekRow) (acc : List Preview)
    (h : ¬ ((acc.length : Int) < m)) :
    rows.foldl
        (fun acc row => if (acc.length : Int) < m then acc ++ [previewOf row] else acc) acc
      = acc := by
  induction rows with
  | nil => rfl
  | cons hd tl ih => simp [List.foldl_cons, h, ih]

lemma peekPreviews_foldl_take (m : Int) (rows : List PeekRow) :
    ∀ acc : List Preview, (acc.length : Int) ≤ m →
      rows.foldl
          (fun acc row => if (acc.length : Int) < m then acc ++ [previewOf row] else acc) acc
        = acc ++ (rows.take (m - acc.length).toNat).map previewOf := by
  induction rows with
  | nil => intro acc _; simp
  | cons hd tl ih =>
    intro acc hacc
    by_cases hlt : (acc.length : Int) < m
    · have hstep := ih (acc ++ [previewOf hd]) (by simp; omega)
      have htn : (m - (acc.length : Int)).toNat = (m - ((acc.length : Int) + 1)).toNat + 1 := by
        omega
      simp only [List.foldl_cons, if_pos hlt]
      rw [hstep]
      simp only [List.length_append, List.length_cons, List.length_nil]
      rw [htn]
      simp [List.take_succ_cons]
    · have hm : m = (acc.length : Int) := by omega
      simp only [List.foldl_cons, if_neg hlt]
      rw [peekPreviews_foldl_full m tl acc hlt]
      simp [hm]

/-- C5 (confirmed): for every valid peek call (non-negative
    `top_n_snippets`; the HTTP layer enforces positivity), the preview
    list is exactly the first `min(top_n_snippets, candidate_count)`
    candidates of the search result, mapped to previews in the same
    ascending-distance order in which the search returned them, so its
    length is `min(top_n_snippets, candidate_count)` and no re-ranking
    occurs. -/
theorem peek_previews_order_and_length (rows : List PeekRow) (top_n_snippets : Int)
    (h : 0 ≤ top_n_snippets) :
    peekPreviews rows top_n_snippets
        = (rows.take (min top_n_snippets.toNat rows.length)).map previewOf
    ∧ (peekPreviews rows top_n_snippets).length = min top_n_snippets.toNat rows.length := by
  have hmain :
      peekPreviews rows top_n_snippets
        = (rows.take (min top_n_snippets.toNat rows.length)).map previewOf := by
    unfold peekPreviews
    have hc := peekPreviews_foldl_take (min top_n_snippets (rows.length : Int)) rows []
      (by simp; omega)
    simp only [List.nil_append, List.length_nil] at hc
    rw [hc]
    congr 2
    omega
  refine ⟨hmain, ?_⟩
  rw [hmain]
  simp [List.length_take]

/-- Witness for C5 at a concrete peek: two candidate rows and
    `top_n_snippets = 5`, so the preview list is both rows in order. -/
theorem peek_previews_order_and_length_witness :
    (0 : Int) ≤ 5
    ∧ peekPreviews
        [{ turn_id := "t1", user_message_id := "u1", assistant_message_id := none,
           used_turn_summary := false, conversation_id := "c1",
           user_create_time := some 0, user_text := some "alpha",
           assistant_text := some "beta", assistant_summary := none,
           distance := 1 },
         { turn_id := "t2", user_message_id := "u2", assistant_message_id := none,
           used_turn_summary := false, conversation_id := "c1",
           user_create_time := some 86400, user_text := some "gamma",
           assistant_text := some "delta", assistant_summary := none,
           distance := 2 }] 5
      = (([{ turn_id := "t1", user_message_id := "u1", assistant_message_id := none,
             used_turn_summary := false, conversation_id := "c1",
             user_create_time := some 0, user_text := some "alpha",
             assistant_text := some "beta", assistant_summary := none,
             distance := 1 },
           { turn_id := "t2", user_message_id := "u2", assistant_message_id := none,
             used_turn_summary := false, conversation_id := "c1",
             user_create_time := some 86400, user_text := some "gamma",
             assistant_text := some "delta", assistant_summary := none,
             distance := 2 }] : List PeekRow).take (min (Int.toNat 5) 2)).map previewOf :=
  ⟨by decide,
   (peek_previews_order_and_length
      [{ turn_id := "t1", user_message_id := "u1", assistant_message_id := none,
         used_turn_summary := false, conversation_id := "c1",
         user_create_time := some 0, user_text := some "alpha",
         assistant_text := some "beta", assistant_summary := none,
         distance := 1 },
       { turn_id := "t2", user_message_id := "u2", assistant_message_id := none,
         used_turn_summary := false, conversation_id := "c1",
         user_create_time := some 86400, user_text := some "gamma",
         assistant_text := some "delta", assistant_summary := none,
         distance := 2 }] 5 (by decide)).1⟩

/-- C7 (confirmed): the similarity score is `1 / (1 + d)`; it is strictly
    decreasing on non-negative distances, lies in the interval `(0, 1]`
    there, and equals 1 at distance 0. -/
theorem score_properties (d d1 d2 : ℚ) (hd : 0 ≤ d) (h1 : 0 ≤ d1) (h12 : d1 < d2) :
    score_from_distance d = 1 / (1 + d)
    ∧ score_from_distance d2 < score_from_distance d1
    ∧ 0 < score_from_distance d
    ∧ score_from_distance d ≤ 1
    ∧ score_from_distance 0 = 1 := by
  have hpos : (0 : ℚ) < 1 + d := by linarith
  have hpos1 : (0 : ℚ) < 1 + d1 := by linarith
  refine ⟨rfl, ?_, ?_, ?_, by norm_num [score_from_distance]⟩
  · unfold score_from_distance
    exact one_div_lt_one_div_of_lt hpos1 (by linarith)
  · unfold score_from_distance
    positivity
  · unfold score_from_distance
    rw [div_le_one hpos]
    linarith

/-- Witness for C7 at `d = 3`, `d1 = 0`, `d2 = 1`. -/
theorem score_properties_witness :
    ((0 : ℚ) ≤ 3 ∧ (0 : ℚ) ≤ 0 ∧ (0 : ℚ) < 1)
    ∧ (score_from_distance 3 = 1 / (1 + 3)
       ∧ score_from_distance 1 < score_from_distance 0
       ∧ 0 < score_from_distance 3
       ∧ score_from_distance 3 ≤ 1
       ∧ score_from_distance 0 = 1) :=
  ⟨⟨by norm_num, by norm_num, by norm_num⟩,
   score_properties 3 0 1 (by norm_num) (by norm_num) (by norm_num)⟩

lemma turnTool_capped (db : List TurnRec) (parse : Option String → Option String)
    (hyd : Nat) (a : Option String) (h : MAX_HYDRATE_TURNS ≤ hyd) :
    turnTool db parse hyd a = (cappedResp, hyd) := by
  simp [turnTool, h]

lemma turnTool_ok (db : List TurnRec) (parse : Option String → Option String)
    (hyd : Nat) (a : Option String) (u : String) (r : TurnRec)
    (h : hyd < MAX_HYDRATE_TURNS) (hp : parse a = some u)
    (hf : db.find? (fun rec => rec.id == u) = some r) :
    (turnTool db parse hyd a).1.ok = true ∧ (turnTool db parse hyd a).2 = hyd + 1 := by
  have hnot : ¬ MAX_HYDRATE_TURNS ≤ hyd := by omega
  simp [turnTool, hnot, hp, hf]

lemma turnTool_notFound (db : List TurnRec) (parse : Option String → Option String)
    (hyd : Nat) (a : Option String) (u : String)
    (h : hyd < MAX_HYDRATE_TURNS) (hp : parse a = some u)
    (hf : db.find? (fun rec => rec.id == u) = none) :
    turnTool db parse hyd a = (notFoundResp, hyd) := by
  have hnot : ¬ MAX_HYDRATE_TURNS ≤ hyd := by omega
  simp [turnTool, hnot, hp, hf]

lemma runHydrates_valid_getD (db : List TurnRec) (parse : Option String → Option String) :
    ∀ (args : List (Option String)) (hyd : Nat),
      (∀ a ∈ args, ((parse a).bind (fun u => db.find? (fun r => r.id == u))).isSome = true) →
      ∀ i, i < args.length →
        (hyd + i < MAX_HYDRATE_TURNS →
          ((runHydrates db parse args hyd).1.getD i cappedResp).ok = true)
        ∧ (MAX_HYDRATE_TURNS ≤ hyd + i →
          (runHydrates db parse args hyd).1.getD i cappedResp = cappedResp) := by
  intro args
  induction args with
  | nil => intro hyd _ i hi; simp at hi
  | cons a rest ih =>
    intro hyd hvalid i hi
    have hva := hvalid a (by simp)
    obtain ⟨u, hp, hfs⟩ : ∃ u, parse a = some u
        ∧ (db.find? (fun r => r.id == u)).isSome = true := by
      cases hpa : parse a with
      | none => rw [hpa] at hva; simp at hva
      | some u => rw [hpa] at hva; simp at hva; exact ⟨u, rfl, by simp [hva]⟩
    obtain ⟨r, hf⟩ : ∃ r, db.find? (fun rec => rec.id == u) = some r := by
      cases hfa : db.find? (fun rec => rec.id == u) with
      | none => rw [hfa] at hfs; simp at hfs
      | some r => exact ⟨r, rfl⟩
    by_cases hcap : MAX_HYDRATE_TURNS ≤ hyd
    · have hstep := turnTool_capped db parse hyd a hcap
      cases i with
      | zero =>
        constructor
        · intro habs; omega
        · intro _
          simp [runHydrates, hstep]
      | succ j =>
        have hrec := ih hyd (fun x hx => hvalid x (by simp [hx])) j (by simpa using hi)
        constructor
        · intro habs; omega
        · intro _
          have h2 := hrec.2 (by omega)
          simpa [runHydrates, hstep] using h2
    · have hlt : hyd < MAX_HYDRATE_TURNS := by omega
      have hstep := turnTool_ok db parse hyd a u r hlt hp hf
      cases i with
      | zero =>
        constructor
        · intro _
          simpa [runHydrates] using hstep.1
        · intro habs; omega
      | succ j =>
        have hrec := ih (hyd + 1) (fun x hx => hvalid x (by simp [hx])) j (by simpa using hi)
        constructor
        · intro hcond
          have h1 := hrec.1 (by omega)
          simpa [runHydrates, hstep.2] using h1
        · intro hcond
          have h2 := hrec.2 (by omega)
          simpa [runHydrates, hstep.2] using h2

/-- C2 (confirmed): within one run, starting from a zero hydrate counter
    and any sequence of hydrate calls whose turn ids parse and exist,
    each of the first 20 calls succeeds (in particular the 20th, index
    19), and every later call returns the capped-out error; independently
    of any history, once the counter has reached 20 every call is capped
    out regardless of its turn id, and below the cap a call with a valid
    but missing turn id returns the structured not-found error and leaves
    the counter unchanged. -/
theorem hydrate_cap_behavior (db : List TurnRec) (parse : Option String → Option String)
    (args : List (Option String))
    (hvalid : ∀ a ∈ args, ((parse a).bind (fun u => db.find? (fun r => r.id == u))).isSome = true) :
    (∀ i, i < args.length → i < MAX_HYDRATE_TURNS →
        ((runHydrates db parse args 0).1.getD i cappedResp).ok = true)
    ∧ (∀ i, i < args.length → MAX_HYDRATE_TURNS ≤ i →
        (runHydrates db parse args 0).1.getD i cappedResp = cappedResp)
    ∧ (∀ hyd a, MAX_HYDRATE_TURNS ≤ hyd → turnTool db parse hyd a = (cappedResp, hyd))
    ∧ (∀ hyd a u, hyd < MAX_HYDRATE_TURNS → parse a = some u →
        db.find? (fun r => r.id == u) = none →
        turnTool db parse hyd a = (notFoundResp, hyd)) := by
  refine ⟨?_, ?_, ?_, ?_⟩
  · intro i hi hcap
    exact ((runHydrates_valid_getD db parse args 0 hvalid i hi).1 (by omega))
  · intro i hi hcap
    exact ((runHydrates_valid_getD db parse args 0 hvalid i hi).2 (by omega))
  · intro hyd a hcap
    exact turnTool_capped db parse hyd a hcap
  · intro hyd a u hlt hp hf
    exact turnTool_notFound db parse hyd a u hlt hp hf

/-- Witness for C2: a database with one turn `t1`, the identity UUID
    parser, and 21 hydrate calls for `t1`; the 20th call (index 19)
    succeeds and the 21st (index 20) is capped out. -/
theorem hydrate_cap_behavior_witness :
    (∀ a ∈ List.replicate 21 (some "t1"),
      (((fun o : Option String => o) a).bind
        (fun u => ([{ id := "t1", provider := "p", model := "m", user_message_id := "u1",
                      assistant_message_id := none, used_turn_summary := false,
                      conversation_id := "c1", user_create_time := none,
                      user_text := some "hello", assistant_text := some "world",
                      assistant_summary := none }] : List TurnRec).find?
          (fun r => r.id == u))).isSome = true)
    ∧ ((runHydrates
          [{ id := "t1", provider := "p", model := "m", user_message_id := "u1",
             assistant_message_id := none, used_turn_summary := false,
             conversation_id := "c1", user_create_time := none,
             user_text := some "hello", assistant_text := some "world",
             assistant_summary := none }]
          (fun o : Option String => o) (List.replicate 21 (some "t1")) 0).1.getD 19
        cappedResp).ok = true
    ∧ (runHydrates
          [{ id := "t1", provider := "p", model := "m", user_message_id := "u1",
             assistant_message_id := none, used_turn_summary := false,
             conversation_id := "c1", user_create_time := none,
             user_text := some "hello", assistant_text := some "world",
             assistant_summary := none }]
          (fun o : Option String => o) (List.replicate 21 (some "t1")) 0).1.getD 20
        cappedResp = cappedResp :=
  ⟨by decide,
   (hydrate_cap_behavior
      [{ id := "t1", provider := "p", model := "m", user_message_id := "u1",
         assistant_message_id := none, used_turn_summary := false,
         conversation_id := "c1", user_create_time := none,
         user_text := some "hello", assistant_text := some "world",
         assistant_summary := none }]
      (fun o : Option String => o) (List.replicate 21 (some "t1"))
      (by decide)).1 19 (by decide) (by decide),
   (hydrate_cap_behavior
      [{ id := "t1", provider := "p", model := "m", user_message_id := "u1",
         assistant_message_id := none, used_turn_summary := false,
         conversation_id := "c1", user_create_time := none,
         user_text := some "hello", assistant_text := some "world",
         assistant_summary := none }]
      (fun o : Option String => o) (List.replicate 21 (some "t1"))
      (by decide)).2.1 20 (by decide) (by decide)⟩

lemma orchGo_succ_tools (env : OrchEnv) (intent : String) (f : Nat) (st : LoopState)
    (htc : (env.completions (MAX_ROUNDS - (f + 1))).tool_calls ≠ []) :
    orchGo env intent (f + 1) st
      = orchGo env intent f (applyCalls env st (env.completions (MAX_ROUNDS - (f + 1))).tool_calls) := by
  simp only [orchGo]
  rw [if_pos htc]

lemma orchGo_succ_degenerate (env : OrchEnv) (intent : String) (f : Nat) (st : LoopState)
    (htc : (env.completions (MAX_ROUNDS - (f + 1))).tool_calls = [])
    (hct : pyStrip ((env.completions (MAX_ROUNDS - (f + 1))).content.getD "") = "") :
    orchGo env intent (f + 1) st = orchGo env intent f st := by
  simp only [orchGo]
  rw [if_neg (by simp [htc]), if_pos hct]

lemma orchGo_succ_completed (env : OrchEnv) (intent : String) (f : Nat) (st : LoopState)
    (htc : (env.completions (MAX_ROUNDS - (f + 1))).tool_calls = [])
    (hct : pyStrip ((env.completions (MAX_ROUNDS - (f + 1))).content.getD "") ≠ "") :
    orchGo env intent (f + 1) st
      = { intent := intent
          final_answer := some (pyStrip ((env.completions (MAX_ROUNDS - (f + 1))).content.getD ""))
          status := "completed", rounds := MAX_ROUNDS - f, tool_runs := st.tool_runs
          cited_turn_ids := citedTurnIds st.tool_runs, histogram := st.histogram } := by
  simp only [orchGo]
  rw [if_neg (by simp [htc]), if_neg hct]

lemma orchGo_exhausts (env : OrchEnv) (intent : String)
    (h : ∀ i, i < MAX_ROUNDS →
      (env.completions i).tool_calls ≠ [] ∨ pyStrip ((env.completions i).content.getD "") = "") :
    ∀ (fuel : Nat) (st : LoopState),
      (orchGo env intent fuel st).status = "max_rounds_exceeded"
      ∧ (orchGo env intent fuel st).final_answer = none
      ∧ (orchGo env intent fuel st).rounds = MAX_ROUNDS := by
  intro fuel
  induction fuel with
  | zero => intro st; exact ⟨rfl, rfl, rfl⟩
  | succ f ih =>
    intro st
    have hidx : MAX_ROUNDS - (f + 1) < MAX_ROUNDS := by
      simp only [MAX_ROUNDS]
      omega
    have hm := h (MAX_ROUNDS - (f + 1)) hidx
    by_cases htc : (env.completions (MAX_ROUNDS - (f + 1))).tool_calls = []
    · have hct : pyStrip ((env.completions (MAX_ROUNDS - (f + 1))).content.getD "") = "" := by
        rcases hm with hm | hm
        · exact absurd htc hm
        · exact hm
      rw [orchGo_succ_degenerate env intent f st htc hct]
      exact ih st
    · rw [orchGo_succ_tools env intent f st htc]
      exact ih _

/-- C1 (confirmed): when each of the 8 completion responses contains tool
    calls, `LLMOrchestrator.run` terminates after exactly 8 rounds with a
    result (not an exception) whose status is `max_rounds_exceeded`, whose
    `final_answer` is null and whose round count is 8; and
    `AgentService.run` then raises the no-response error before its
    persistence step, so neither `append_turn` nor `create_session` is
    reached and the store is untouched. -/
theorem max_rounds_run_without_persistence (env : OrchEnv) (st : Store) (intent : String)
    (session_id : Option String)
    (h : ∀ i, i < MAX_ROUNDS → (env.completions i).tool_calls ≠ []) :
    (LLMOrchestrator_run env intent).status = "max_rounds_exceeded"
    ∧ (LLMOrchestrator_run env intent).final_answer = none
    ∧ (LLMOrchestrator_run env intent).rounds = MAX_ROUNDS
    ∧ AgentService_run env st intent session_id = Except.error AgentError.noResponse := by
  have hor : ∀ i, i < MAX_ROUNDS →
      (env.completions i).tool_calls ≠ [] ∨ pyStrip ((env.completions i).content.getD "") = "" :=
    fun i hi => Or.inl (h i hi)
  have hmain := orchGo_exhausts env intent hor MAX_ROUNDS
    { tool_runs := [], histogram := none, hydrated := 0 }
  have hstatus : (LLMOrchestrator_run env intent).status = "max_rounds_exceeded" := hmain.1
  have hfinal : (LLMOrchestrator_run env intent).final_answer = none := hmain.2.1
  have hrounds : (LLMOrchestrator_run env intent).rounds = MAX_ROUNDS := hmain.2.2
  refine ⟨hstatus, hfinal, hrounds, ?_⟩
  simp [AgentService_run, hfinal]

/-- Witness for C1: a gateway that requests a `retrieval_turn` call every
    round; the run exhausts its budget and the agent service errors out
    without persisting. -/
theorem max_rounds_run_without_persistence_witness :
    (∀ i, i < MAX_ROUNDS →
      (({ completions := fun _ =>
            { content := none
              tool_calls := [{ id := some "call1", name := some "retrieval_turn"
                               args := { turn_id := some "t1" } }] }
          peekOracle := fun _ => notFoundResp
          db := []
          parse := fun o => o } : OrchEnv).completions i).tool_calls ≠ [])
    ∧ (LLMOrchestrator_run
        { completions := fun _ =>
            { content := none
              tool_calls := [{ id := some "call1", name := some "retrieval_turn"
                               args := { turn_id := some "t1" } }] }
          peekOracle := fun _ => notFoundResp
          db := []
          parse := fun o => o } "question").status = "max_rounds_exceeded"
    ∧ AgentService_run
        { completions := fun _ =>
            { content := none
              tool_calls := [{ id := some "call1", name := some "retrieval_turn"
                               args := { turn_id := some "t1" } }] }
          peekOracle := fun _ => notFoundResp
          db := []
          parse := fun o => o }
        { sessions := [], messages := [], session_messages := [], fresh := 0 }
        "question" none = Except.error AgentError.noResponse :=
  ⟨fun i _ => by simp,
   (max_rounds_run_without_persistence
      { completions := fun _ =>
          { content := none
            tool_calls := [{ id := some "call1", name := some "retrieval_turn"
                             args := { turn_id := some "t1" } }] }
        peekOracle := fun _ => notFoundResp
        db := []
        parse := fun o => o }
      { sessions := [], messages := [], session_messages := [], fresh := 0 }
      "question" none (fun i _ => by simp)).1,
   (max_rounds_run_without_persistence
      { completions := fun _ =>
          { content := none
            tool_calls := [{ id := some "call1", name := some "retrieval_turn"
                             args := { turn_id := some "t1" } }] }
        peekOracle := fun _ => notFoundResp
        db := []
        parse := fun o => o }
      { sessions := [], messages := [], session_messages := [], fresh := 0 }
      "question" none (fun i _ => by simp)).2.2.2⟩

/-- C6 (confirmed): a completion response with no tool calls and empty or
    whitespace-only text does not terminate the run — the round is
    consumed and the loop proceeds — and a run of 8 such degenerate
    rounds terminates by round exhaustion with status
    `max_rounds_exceeded` after 8 rounds. -/
theorem degenerate_round_consumed (env : OrchEnv) (intent : String) (fuel : Nat)
    (st : LoopState)
    (htc : (env.completions (MAX_ROUNDS - (fuel + 1))).tool_calls = [])
    (hct : pyStrip ((env.completions (MAX_ROUNDS - (fuel + 1))).content.getD "") = "")
    (hall : ∀ i, i < MAX_ROUNDS →
      (env.completions i).tool_calls = []
      ∧ pyStrip ((env.completions i).content.getD "") = "") :
    orchGo env intent (fuel + 1) st = orchGo env intent fuel st
    ∧ (LLMOrchestrator_run env intent).status = "max_rounds_exceeded"
    ∧ (LLMOrchestrator_run env intent).final_answer = none
    ∧ (LLMOrchestrator_run env intent).rounds = MAX_ROUNDS := by
  have hor : ∀ i, i < MAX_ROUNDS →
      (env.completions i).tool_calls ≠ [] ∨ pyStrip ((env.completions i).content.getD "") = "" :=
    fun i hi => Or.inr (hall i hi).2
  have hmain := orchGo_exhausts env intent hor MAX_ROUNDS
    { tool_runs := [], histogram := none, hydrated := 0 }
  exact ⟨orchGo_succ_degenerate env intent fuel st htc hct, hmain.1, hmain.2.1, hmain.2.2⟩

/-- Witness for C6: a gateway that answers every round with whitespace-only
    text and no tool calls. -/
theorem degenerate_round_consumed_witness :
    ((({ completions := fun _ => { content := some "   ", tool_calls := [] }
         peekOracle := fun _ => notFoundResp
         db := []
         parse := fun o => o } : OrchEnv).completions
        (MAX_ROUNDS - (7 + 1))).tool_calls = [])
    ∧ (LLMOrchestrator_run
        { completions := fun _ => { content := some "   ", tool_calls := [] }
          peekOracle := fun _ => notFoundResp
          db := []
          parse := fun o => o } "question").status = "max_rounds_exceeded" :=
  ⟨rfl,
   (degenerate_round_consumed
      { completions := fun _ => { content := some "   ", tool_calls := [] }
        peekOracle := fun _ => notFoundResp
        db := []
        parse := fun o => o } "question" 7
      { tool_runs := [], histogram := none, hydrated := 0 }
      rfl (by decide) (fun i _ => ⟨rfl, rfl⟩)).2.1⟩

lemma orchGo_status_cited (env : OrchEnv) (intent : String) :
    ∀ (fuel : Nat) (st : LoopState),
      ((orchGo env intent fuel st).status = "completed"
        ∨ (orchGo env intent fuel st).status = "max_rounds_exceeded")
      ∧ (orchGo env intent fuel st).cited_turn_ids
          = (if (orchGo env intent fuel st).status = "completed"
             then citedTurnIds (orchGo env intent fuel st).tool_runs else []) := by
  intro fuel
  induction fuel with
  | zero =>
    intro st
    constructor
    · right; rfl
    · simp [orchGo]
  | succ f ih =>
    intro st
    by_cases htc : (env.completions (MAX_ROUNDS - (f + 1))).tool_calls = []
    · by_cases hct : pyStrip ((env.completions (MAX_ROUNDS - (f + 1))).content.getD "") = ""
      · rw [orchGo_succ_degenerate env intent f st htc hct]
        exact ih st
      · rw [orchGo_succ_completed env intent f st htc hct]
        constructor
        · left; rfl
        · simp
    · rw [orchGo_succ_tools env intent f st htc]
      exact ih _

/-- C3 (corrected): the `cited_turn_ids` of an orchestration run equal the
    ordered turn ids of the successful `retrieval_turn` runs in the
    tool-run log (duplicates kept) only when the run completed; a run that
    terminates with status `max_rounds_exceeded` always reports an empty
    `cited_turn_ids`, even when successful hydrates are present in its
    log. -/
theorem cited_turn_ids_by_status (env : OrchEnv) (intent : String) :
    ((LLMOrchestrator_run env intent).status = "completed"
      ∨ (LLMOrchestrator_run env intent).status = "max_rounds_exceeded")
    ∧ (LLMOrchestrator_run env intent).cited_turn_ids
        = (if (LLMOrchestrator_run env intent).status = "completed"
           then citedTurnIds (LLMOrchestrator_run env intent).tool_runs else []) := by
  unfold LLMOrchestrator_run
  exact orchGo_status_cited env intent MAX_ROUNDS { tool_runs := [], histogram := none, hydrated := 0 }

/-- Environment refuting C3 as stated: the database holds turn `t1`, and
    the gateway requests a successful hydrate of `t1` every round, so the
    run ends with `max_rounds_exceeded`, eight successful hydrates in the
    log, and an empty `cited_turn_ids`. -/
def citedCounterexampleEnv : OrchEnv :=
  { completions := fun _ =>
      { content := none
        tool_calls := [{ id := some "call1", name := some "retrieval_turn"
                         args := { turn_id := some "t1" } }] }
    peekOracle := fun _ => notFoundResp
    db := [{ id := "t1", provider := "p", model := "m", user_message_id := "u1",
             assistant_message_id := none, used_turn_summary := false,
             conversation_id := "c1", user_create_time := none,
             user_text := some "hello", assistant_text := some "world",
             assistant_summary := none }]
    parse := fun o => o }

/-- Counterexample to C3 as stated: for this run the tool-run log contains
    eight successful `retrieval_turn` runs for `t1`, yet the result's
    `cited_turn_ids` is empty, so it does not equal the ordered list of
    successfully hydrated turn ids. -/
theorem cited_turn_ids_counterexample :
    (LLMOrchestrator_run citedCounterexampleEnv "question").status = "max_rounds_exceeded"
    ∧ citedTurnIds (LLMOrchestrator_run citedCounterexampleEnv "question").tool_runs
        = ["t1", "t1", "t1", "t1", "t1", "t1", "t1", "t1"]
    ∧ (LLMOrchestrator_run citedCounterexampleEnv "question").cited_turn_ids
        ≠ citedTurnIds (LLMOrchestrator_run citedCounterexampleEnv "question").tool_runs := by
  refine ⟨by decide, by decide, by decide⟩

lemma splitOnSpace_ne_nil : ∀ l : List Char, splitOnSpace l ≠ [] := by
  intro l
  cases l with
  | nil => simp [splitOnSpace]
  | cons c rest =>
    simp only [splitOnSpace]
    by_cases hc : c = ' '
    · simp [hc]
    · simp only [hc, if_false]
      cases h : splitOnSpace rest <;> simp

lemma deltaContents_length : ∀ ps : List (List Char), (deltaContents ps).length = ps.length := by
  intro ps
  induction ps with
  | nil => rfl
  | cons t rest ih =>
    cases rest with
    | nil => rfl
    | cons q qs => simp only [deltaContents, List.length_cons] at ih ⊢; omega

lemma deltaContents_join_splitOnSpace :
    ∀ l : List Char, (deltaContents (splitOnSpace l)).flatten = l := by
  intro l
  induction l with
  | nil => rfl
  | cons c rest ih =>
    by_cases hc : c = ' '
    · subst hc
      simp only [splitOnSpace, if_pos rfl]
      cases hS : splitOnSpace rest with
      | nil => exact absurd hS (splitOnSpace_ne_nil rest)
      | cons p ps =>
        rw [hS] at ih
        simp only [if_true, deltaContents, List.flatten_cons, List.nil_append]
        simp [ih]
    · simp only [splitOnSpace, if_neg hc]
      cases hS : splitOnSpace rest with
      | nil => exact absurd hS (splitOnSpace_ne_nil rest)
      | cons p ps =>
        rw [hS] at ih
        cases ps with
        | nil =>
          simp only [deltaContents, List.flatten_cons, List.flatten_nil, List.append_nil] at ih ⊢
          simp [ih]
        | cons q qs =>
          simp only [deltaContents, List.flatten_cons] at ih ⊢
          rw [← ih]
          simp

lemma deltaContents_eq_dropLast :
    ∀ ps : List (List Char), ps ≠ [] →
      deltaContents ps
        = (ps.dropLast.map (fun t => t ++ [' '])) ++ [(ps.getLast?).getD []] := by
  intro ps
  induction ps with
  | nil => intro h; exact absurd rfl h
  | cons t rest ih =>
    intro _
    cases rest with
    | nil => simp [deltaContents]
    | cons q qs =>
      have hrec := ih (by simp)
      simp only [deltaContents, hrec, List.dropLast_cons₂, List.map_cons, List.getLast?_cons_cons,
        List.cons_append]

/-- C8 (corrected): `stream_answer` yields, in order, one token-delta event
    per segment of the answer split on the single space character (Python
    `text.split(" ")`, not a general whitespace split), each segment
    carrying a trailing space except the last so that concatenating all
    delta contents reconstructs the answer exactly; then one metadata
    event whose delta carries the metadata object with finish reason
    `"metadata"`; then the terminal done marker (the literal
    `data: [DONE]`). -/
theorem stream_answer_events (text : List Char) (m : RunMetadata) :
    stream_answer text m
      = (((splitOnSpace text).dropLast.map (fun t => t ++ [' '])).map StreamEvent.delta)
        ++ [StreamEvent.delta (((splitOnSpace text).getLast?).getD []),
            StreamEvent.metadataEvent m "metadata", StreamEvent.done]
    ∧ (deltaContents (splitOnSpace text)).flatten = text
    ∧ (deltaContents (splitOnSpace text)).length = (splitOnSpace text).length := by
  refine ⟨?_, deltaContents_join_splitOnSpace text, deltaContents_length _⟩
  unfold stream_answer
  rw [deltaContents_eq_dropLast (splitOnSpace text) (splitOnSpace_ne_nil text)]
  simp

/-- Metadata object used in the C8 counterexample. -/
def streamCounterexampleMeta : RunMetadata :=
  { cited_turn_ids := [], histogram := defaultHistogram, session_id := "s"
    conversation_id := "c", user_message_id := "u", assistant_message_id := "a" }

/-- Counterexample to C8 as stated: for the answer `"a\nb"` the
    whitespace-split words are `a` and `b`, so the claim prescribes the
    two delta events `"a "` and `"b"`; the code splits on the space
    character only and emits a single delta `"a\nb"`, so the stream is not
    the claimed event sequence (and the claimed sequence would not even
    reconstruct the answer). -/
theorem stream_answer_counterexample :
    stream_answer ['a', '\n', 'b'] streamCounterexampleMeta
      ≠ (claimedDeltaContents ['a', '\n', 'b']).map StreamEvent.delta
        ++ [StreamEvent.metadataEvent streamCounterexampleMeta "metadata", StreamEvent.done]
    ∧ claimedDeltaContents ['a', '\n', 'b'] = [['a', ' '], ['b']]
    ∧ deltaContents (splitOnSpace ['a', '\n', 'b']) = [['a', '\n', 'b']]
    ∧ (claimedDeltaContents ['a', '\n', 'b']).flatten ≠ ['a', '\n', 'b'] := by
  refine ⟨by decide, by decide, by decide, by decide⟩

lemma conversationIdForSession_messages (st : Store) (sid : String) (m : Option String) :
    (conversationIdForSession st sid m).2.messages = st.messages := by
  unfold conversationIdForSession
  cases m with
  | some c => rfl
  | none =>
    cases hL : (st.session_messages.filter (fun sm => sm.session_id == sid)).mergeSort
        (fun a b => a.idx ≤ b.idx) with
    | nil => rfl
    | cons sm rest =>
      cases hF : st.messages.find? (fun m => m.id == sm.message_id) with
      | none => simp [hF]
      | some mrow => simp [hF]

lemma insertContent_length (c : List Char) : (insertContent c).length ≤ MAX_CONTENT_LEN := by
  unfold insertContent
  by_cases hcond : stripChars c ≠ [] ∧ MAX_CONTENT_LEN < (stripChars c).length
  · rw [if_pos hcond]
    simp [List.length_take]
  · rw [if_neg hcond]
    push_neg at hcond
    by_cases hnil : stripChars c = []
    · simp [hnil]
    · have := hcond hnil
      omega

/-- Boolean success test on an `append_turn` result. -/
def appendIsOk (r : Except AppendError (AppendOk × Store)) : Bool :=
  match r with
  | Except.ok _ => true
  | Except.error _ => false

lemma append_turn_ok_inversion (st : Store) (sid : String) (u a : List Char)
    (r : AppendOk) (st2 : Store)
    (h : append_turn st sid u a = Except.ok (r, st2)) :
    r.session_id = sid
    ∧ st2.messages.map (fun msg => msg.content_text)
        = st.messages.map (fun msg => msg.content_text) ++ [insertContent u, insertContent a] := by
  unfold append_turn at h
  cases hfind : st.sessions.find? (fun s => s.id == sid) with
  | none => simp [hfind] at h
  | some srow =>
    cases harch : srow.archived with
    | true => simp [hfind, harch] at h
    | false =>
      simp only [hfind, harch, Bool.false_eq_true, if_false] at h
      rw [Except.ok.injEq, Prod.mk.injEq] at h
      obtain ⟨hr, hst2⟩ := h
      constructor
      · rw [← hr]
      · rw [← hst2]
        simp only [linkSessionMessage, insertMessage]
        rw [List.map_append, List.map_append]
        rw [conversationIdForSession_messages]
        simp

/-- C9 (corrected): `append_turn` fails, persisting nothing, when the
    target session is missing or archived; it does not itself reject empty
    content — the empty-after-trim checks on user and assistant text are
    performed by the caller `AgentService._persist_turn` before
    `append_turn` is invoked — and on success it returns the four
    identifiers `session_id` (the target session), `conversation_id`,
    `user_message_id` and `assistant_message_id`. -/
theorem append_turn_failure_modes (st : Store) (sid : String) (u a : List Char)
    (srow : SessionRow)
    (hfind : st.sessions.find? (fun s => s.id == sid) = some srow) :
    (srow.archived = true → append_turn st sid u a = Except.error AppendError.archivedSession)
    ∧ (srow.archived = false →
        ∃ r st2, append_turn st sid u a = Except.ok (r, st2) ∧ r.session_id = sid)
    ∧ (∀ (st0 : Store) (sid0 : String),
        st0.sessions.find? (fun s => s.id == sid0) = none →
        append_turn st0 sid0 u a = Except.error AppendError.sessionNotFound)
    ∧ (∀ (st0 : Store) (sid0 : Option String) (utext atext : List Char),
        stripChars utext = [] →
        persist_turn st0 sid0 utext atext = Except.error PersistError.emptyUserMessage)
    ∧ (∀ (st0 : Store) (sid0 : Option String) (utext atext : List Char),
        stripChars utext ≠ [] → stripChars atext = [] →
        persist_turn st0 sid0 utext atext = Except.error PersistError.emptyAssistantMessage) := by
  refine ⟨?_, ?_, ?_, ?_, ?_⟩
  · intro harch
    unfold append_turn
    simp [hfind, harch]
  · intro harch
    unfold append_turn
    simp only [hfind, harch, Bool.false_eq_true, if_false]
    exact ⟨_, _, rfl, rfl⟩
  · intro st0 sid0 h0
    unfold append_turn
    simp [h0]
  · intro st0 sid0 utext atext hu
    unfold persist_turn
    rw [if_pos hu]
  · intro st0 sid0 utext atext hu ha
    unfold persist_turn
    rw [if_neg hu, if_pos ha]

/-- Witness for C9: a store with one archived session `s1`; `append_turn`
    on it fails with the archived-session error, and `_persist_turn`
    rejects whitespace-only user text before any store access. -/
theorem append_turn_failure_modes_witness :
    (({ sessions := [{ id := "s1", archived := true, metadata_conversation_id := some "c1" }]
        messages := [], session_messages := [], fresh := 0 } : Store).sessions.find?
          (fun s => s.id == "s1")
        = some { id := "s1", archived := true, metadata_conversation_id := some "c1" })
    ∧ append_turn
        { sessions := [{ id := "s1", archived := true, metadata_conversation_id := some "c1" }]
          messages := [], session_messages := [], fresh := 0 } "s1" ['h'] ['i']
        = Except.error AppendError.archivedSession
    ∧ persist_turn
        { sessions := [], messages := [], session_messages := [], fresh := 0 } none
        [' '] ['o', 'k'] = Except.error PersistError.emptyUserMessage :=
  ⟨by decide,
   (append_turn_failure_modes
      { sessions := [{ id := "s1", archived := true, metadata_conversation_id := some "c1" }]
        messages := [], session_messages := [], fresh := 0 } "s1" ['h'] ['i']
      { id := "s1", archived := true, metadata_conversation_id := some "c1" }
      (by decide)).1 rfl,
   (append_turn_failure_modes
      { sessions := [{ id := "s1", archived := true, metadata_conversation_id := some "c1" }]
        messages := [], session_messages := [], fresh := 0 } "s1" ['h'] ['i']
      { id := "s1", archived := true, metadata_conversation_id := some "c1" }
      (by decide)).2.2.2.1
     { sessions := [], messages := [], session_messages := [], fresh := 0 } none
     [' '] ['o', 'k'] (by decide)⟩

/-- Counterexample to C9 as stated: on a live (non-archived) session,
    `append_turn` succeeds even though the user content is empty after
    trimming — the empty-content rejection claimed for `append_turn` lives
    in the caller, not here. -/
theorem append_turn_empty_content_counterexample :
    stripChars [] = []
    ∧ appendIsOk (append_turn
        { sessions := [{ id := "s1", archived := false, metadata_conversation_id := some "c1" }]
          messages := [], session_messages := [], fresh := 0 } "s1" [] ['h', 'i']) = true := by
  refine ⟨rfl, by decide⟩

/-- C10 (confirmed): every message row written through `append_turn` has
    its content first stripped of surrounding whitespace and then silently
    truncated to at most `MAX_CONTENT_LEN = 32000` characters — the two
    rows appended by a successful call carry exactly `insertContent` of
    the caller's texts — so, whatever the length of the caller's answer
    text, no persisted chat message ever exceeds 32000 characters and the
    bound is preserved across the whole store. -/
theorem append_turn_content_bounded (st : Store) (sid : String) (u a : List Char)
    (r : AppendOk) (st2 : Store)
    (h : append_turn st sid u a = Except.ok (r, st2))
    (hinv : ∀ msg ∈ st.messages, msg.content_text.length ≤ MAX_CONTENT_LEN) :
    st2.messages.map (fun msg => msg.content_text)
        = st.messages.map (fun msg => msg.content_text) ++ [insertContent u, insertContent a]
    ∧ (∀ msg ∈ st2.messages, msg.content_text.length ≤ MAX_CONTENT_LEN)
    ∧ (∀ c : List Char, insertContent c
        = (if stripChars c ≠ [] ∧ MAX_CONTENT_LEN < (stripChars c).length
           then (stripChars c).take MAX_CONTENT_LEN else stripChars c))
    ∧ (∀ c : List Char, (insertContent c).length ≤ MAX_CONTENT_LEN) := by
  have hshape := append_turn_ok_inversion st sid u a r st2 h
  refine ⟨hshape.2, ?_, fun c => rfl, insertContent_length⟩
  intro msg hmsg
  have hmem : msg.content_text ∈ st2.messages.map (fun m => m.content_text) :=
    List.mem_map_of_mem _ hmsg
  rw [hshape.2] at hmem
  rcases List.mem_append.mp hmem with hmem | hmem
  · obtain ⟨m0, hm0, heq⟩ := List.mem_map.mp hmem
    rw [← heq]
    exact hinv m0 hm0
  · simp only [List.mem_cons, List.mem_singleton, List.not_mem_nil, or_false] at hmem
    rcases hmem with hmem | hmem <;> rw [hmem]
    · exact insertContent_length u
    · exact insertContent_length a

/-- Witness for C10 at a concrete store: appending the turn
    `("hi", "yo")` to the fresh session `s1` stores exactly the two
    stripped contents, and every stored message respects the 32000
    character bound. -/
theorem append_turn_content_bounded_witness :
    append_turn
        { sessions := [{ id := "s1", archived := false, metadata_conversation_id := some "c1" }]
          messages := [], session_messages := [], fresh := 0 } "s1" ['h', 'i'] ['y', 'o']
      = Except.ok
          ({ session_id := "s1", conversation_id := "c1", user_message_id := "id0"
             assistant_message_id := "id1" },
           { sessions := [{ id := "s1", archived := false, metadata_conversation_id := some "c1" }]
             messages := [{ id := "id0", conversation_id := "c1", role := "user"
                            idx_in_conv := 0, content_text := ['h', 'i'] },
                          { id := "id1", conversation_id := "c1", role := "assistant"
                            idx_in_conv := 1, content_text := ['y', 'o'] }]
             session_messages := [{ session_id := "s1", message_id := "id0", idx := 0 },
                                  { session_id := "s1", message_id := "id1", idx := 1 }]
             fresh := 2 })
    ∧ ∀ msg ∈ ([{ id := "id0", conversation_id := "c1", role := "user", idx_in_conv := 0,
                  content_text := ['h', 'i'] },
                { id := "id1", conversation_id := "c1", role := "assistant", idx_in_conv := 1,
                  content_text := ['y', 'o'] }] : List MessageRow),
        msg.content_text.length ≤ MAX_CONTENT_LEN :=
  ⟨rfl,
   (append_turn_content_bounded
      { sessions := [{ id := "s1", archived := false, metadata_conversation_id := some "c1" }]
        messages := [], session_messages := [], fresh := 0 } "s1" ['h', 'i'] ['y', 'o']
      { session_id := "s1", conversation_id := "c1", user_message_id := "id0"
        assistant_message_id := "id1" }
      { sessions := [{ id := "s1", archived := false, metadata_conversation_id := some "c1" }]
        messages := [{ id := "id0", conversation_id := "c1", role := "user"
                       idx_in_conv := 0, content_text := ['h', 'i'] },
                     { id := "id1", conversation_id := "c1", role := "assistant"
                       idx_in_conv := 1, content_text := ['y', 'o'] }]
        session_messages := [{ session_id := "s1", message_id := "id0", idx := 0 },
                             { session_id := "s1", message_id := "id1", idx := 1 }]
        fresh := 2 }
      rfl (by simp)).2.1⟩
